import Mathlib

/-!
Shallow embedding of `server/py/battleship.py` (the Battleship engine).

Conventions of the embedding:
* grid cells are Lean `String`s, built exactly as the Python f-string
  `f"{chr(row)}{col}"` builds them (`mkCoord`);
* Python `int` is `Int`; Python list indexing `l[i]` (with its negative-index
  convention) is `pyGet`/`pySet`;
* a Python call that raises an uncaught exception (TypeError on `x in None`,
  IndexError on `l[i]`, a pydantic validation error on a badly typed field)
  is modelled as `none`; a normal return is `some _`.  Partial mutation that
  Python would leave behind before raising is not observable in this
  value-level model;
* object mutation (`active_player.shots.append`, mutating a `Ship` inside the
  opponent's list) is modelled by rebuilding the player list at the same
  (pythonic) index.  States whose `players` list contains the same object
  twice are outside the model.
-/

set_option maxRecDepth 100000

inductive ActionType where
  | SET_SHIP
  | SHOOT
deriving DecidableEq

structure BattleshipAction where
  action_type : ActionType
  ship_name : Option String
  location : List String
deriving DecidableEq

structure Ship where
  name : String
  length : Nat
  location : Option (List String)
  hits : List String := []
deriving DecidableEq

/-- `Ship.is_sunk`: `len(self.hits) == self.length`. -/
def Ship.is_sunk (s : Ship) : Bool :=
  s.hits.length == s.length

/-- `Ship.register_hit`: appends to `hits` and reports whether the location
matched.  `loc in self.location` raises TypeError when `location` is `None`,
hence the `Option`. -/
def Ship.register_hit (s : Ship) (loc : String) : Option (Ship × Bool) :=
  match s.location with
  | none => none
  | some l =>
    if l.contains loc then some ({ s with hits := s.hits ++ [loc] }, true)
    else some (s, false)

structure PlayerState where
  name : String
  ships : List Ship
  shots : List String := []
  successful_shots : List String := []
deriving DecidableEq

/-- `PlayerState.all_ships_sunk`: `all(ship.is_sunk() for ship in self.ships)`. -/
def PlayerState.all_ships_sunk (p : PlayerState) : Bool :=
  p.ships.all Ship.is_sunk

/-- `PlayerState.has_all_ships_placed`: `len(self.ships) == 5`. -/
def PlayerState.has_all_ships_placed (p : PlayerState) : Bool :=
  p.ships.length == 5

inductive GamePhase where
  | SETUP
  | RUNNING
  | FINISHED
deriving DecidableEq

structure BattleshipGameState where
  idx_player_active : Int
  phase : GamePhase
  winner : Option Int
  players : List PlayerState
deriving DecidableEq

/-- The `Battleship` object's instance fields.  `ship_lengths` is the constant
`[2, 3, 3, 4, 5]` (below); the mutable fields are these five. -/
structure Battleship where
  players : List PlayerState
  idx_player_active : Int
  phase : GamePhase
  winner : Option Int
  is_ship_placement_phase : Bool
deriving DecidableEq

/-- `self.ship_lengths = [2, 3, 3, 4, 5]`. -/
def ship_lengths : List Nat := [2, 3, 3, 4, 5]

/-- Pythonic list read `l[i]`: negative indices count from the end, an index
out of range raises IndexError (`none`). -/
def pyGet (l : List α) (i : Int) : Option α :=
  if 0 ≤ i then l.get? i.toNat
  else if (-i) ≤ (l.length : Int) then l.get? (l.length - (-i).toNat)
  else none

/-- Pythonic list write at index `i`; used to model in-place mutation of the
player object sitting at that index. -/
def pySet (l : List α) (i : Int) (x : α) : List α :=
  if 0 ≤ i then l.set i.toNat x
  else l.set (l.length - (-i).toNat) x

/-- `Battleship.__init__`. -/
def Battleship.init : Battleship :=
  { players := [{ name := "a", ships := [] }, { name := "b", ships := [] }],
    idx_player_active := 0,
    phase := .SETUP,
    winner := none,
    is_ship_placement_phase := true }

/-- `Battleship.get_state`. -/
def Battleship.get_state (g : Battleship) : BattleshipGameState :=
  { idx_player_active := g.idx_player_active, phase := g.phase,
    winner := g.winner, players := g.players }

/-- `Battleship.set_state`: copies the four `BattleshipGameState` fields;
note that `is_ship_placement_phase` is not touched. -/
def Battleship.set_state (g : Battleship) (state : BattleshipGameState) : Battleship :=
  { g with idx_player_active := state.idx_player_active,
           phase := state.phase,
           winner := state.winner,
           players := state.players }

/-- `f"{chr(row)}{col}"`: the one serialized cell format. -/
def mkCoord (row col : Nat) : String :=
  String.singleton (Char.ofNat row) ++ toString col

/-- `ord(start[0])`. -/
def rowOf (start : String) : Nat :=
  (start.get ⟨0⟩).toNat

/-- One decimal digit of a Python `int(...)` literal. -/
def digitVal (c : Char) : Option Nat :=
  if '0' ≤ c ∧ c ≤ '9' then some (c.toNat - '0'.toNat) else none

/-- Decimal accumulation for `int(...)`. -/
def digitsToNatAux (acc : Nat) : List Char → Option Nat
  | [] => some acc
  | c :: cs =>
    match digitVal c with
    | none => none
    | some d => digitsToNatAux (acc * 10 + d) cs

/-- `int(...)` on a nonnegative decimal literal (no sign, no spaces — the only
shapes the engine ever feeds it). -/
def digitsToNat : List Char → Option Nat
  | [] => none
  | cs => digitsToNatAux 0 cs

/-- `int(start[1:])` (well-defined on the well-formed cells the engine uses). -/
def colOf (start : String) : Nat :=
  (digitsToNat (start.data.drop 1)).getD 0

/-- `Battleship.generate_ship_coordinates`.  The trailing
`return coordinates if coordinates else None` turns an empty list (length 0,
or an unknown orientation string) into `None`. -/
def Battleship.generate_ship_coordinates (start : String) (length : Nat)
    (orientation : String) : Option (List String) :=
  let row := rowOf start
  let col := colOf start
  if orientation = "horizontal" then
    if col + length - 1 > 10 then none
    else
      let coordinates := (List.range length).map fun i => mkCoord row (col + i)
      if coordinates = [] then none else some coordinates
  else if orientation = "vertical" then
    if row + length - 1 > 'J'.toNat then none
    else
      let coordinates := (List.range length).map fun i => mkCoord (row + i) col
      if coordinates = [] then none else some coordinates
  else none

/-- The overlap loop of `is_valid_ship_placement`:
`if set(coordinates) & set(ship.location): return False` for each placed ship;
`set(ship.location)` raises TypeError when `location` is `None`. -/
def overlapLoop (coordinates : List String) : List Ship → Option Bool
  | [] => some true
  | ship :: rest =>
    match ship.location with
    | none => none
    | some l =>
      if coordinates.any (fun c => l.contains c) then some false
      else overlapLoop coordinates rest

/-- `Battleship.is_valid_ship_placement`. -/
def Battleship.is_valid_ship_placement (player : PlayerState) (length : Nat)
    (start : String) (orientation : String) : Option Bool :=
  match Battleship.generate_ship_coordinates start length orientation with
  | none => some false
  | some coordinates => overlapLoop coordinates player.ships

/-- `all_locations = [f"{chr(r)}{c}" for r in range(ord('A'), ord('J') + 1)
for c in range(1, 11)]` (both occurrences in `get_list_action`). -/
def allLocations : List String :=
  (List.range' 65 10).flatMap fun r => (List.range' 1 10).map fun c => mkCoord r c

/-- One location's contribution to the placement action list: the candidate
for this orientation when `is_valid_ship_placement` accepts it.
Passing the (impossible) `None` of a second `generate_ship_coordinates` call
into the pydantic `location: List[str]` field would raise, hence `none` there. -/
def placeActionAt (active_player : PlayerState) (length : Nat) (loc : String)
    (orientation : String) : Option (List BattleshipAction) :=
  match Battleship.is_valid_ship_placement active_player length loc orientation with
  | none => none
  | some false => some []
  | some true =>
    match Battleship.generate_ship_coordinates loc length orientation with
    | none => none
    | some cs =>
      some [{ action_type := .SET_SHIP,
              ship_name := some ("Ship-" ++ toString length),
              location := cs }]

/-- The `for loc in all_locations` accumulation of `get_list_action`
(horizontal candidate before vertical candidate at each cell). -/
def listActionsAux (active_player : PlayerState) (length : Nat) :
    List String → Option (List BattleshipAction)
  | [] => some []
  | loc :: rest =>
    match placeActionAt active_player length loc "horizontal" with
    | none => none
    | some hA =>
      match placeActionAt active_player length loc "vertical" with
      | none => none
      | some vA =>
        match listActionsAux active_player length rest with
        | none => none
        | some acc => some (hA ++ vA ++ acc)

/-- `Battleship.get_list_action`.  The branch is on the engine's
`is_ship_placement_phase` flag, not on `phase`. -/
def Battleship.get_list_action (g : Battleship) : Option (List BattleshipAction) :=
  match pyGet g.players g.idx_player_active with
  | none => none
  | some active_player =>
    if g.is_ship_placement_phase then
      let ship_to_place := active_player.ships.length
      if h : ship_to_place < ship_lengths.length then
        listActionsAux active_player (ship_lengths.get ⟨ship_to_place, h⟩) allLocations
      else some []
    else
      some (((allLocations.filter fun loc => !(active_player.shots.contains loc)).map
        fun loc => { action_type := .SHOOT, ship_name := none, location := [loc] }))

/-- The `for ship in opponent.ships` loop of the `SHOOT` branch: the first
ship whose location matches registers the hit and the loop breaks. -/
def shootScan (loc : String) : List Ship → Option (List Ship × Bool)
  | [] => some ([], false)
  | ship :: rest =>
    match ship.register_hit loc with
    | none => none
    | some (ship2, true) => some (ship2 :: rest, true)
    | some (ship2, false) =>
      match shootScan loc rest with
      | none => none
      | some (rest2, hit) => some (ship2 :: rest2, hit)

/-- `Battleship.apply_action`.  No phase check of any kind is performed; the
active-player index flips unconditionally at the end. -/
def Battleship.apply_action (g : Battleship) (action : BattleshipAction) :
    Option Battleship :=
  match pyGet g.players g.idx_player_active,
        pyGet g.players (1 - g.idx_player_active) with
  | some active_player, some opponent =>
    match action.action_type with
    | .SET_SHIP =>
      let ship_length := action.location.length
      let location := action.location
      let step :=
        if location.length == ship_length then
          match action.ship_name with
          | none => none
          | some name =>
            some (pySet g.players g.idx_player_active
              { active_player with
                ships := active_player.ships ++
                  [{ name := name, length := ship_length,
                     location := some location, hits := [] }] })
        else some g.players
      match step with
      | none => none
      | some players2 =>
        let g2 :=
          if players2.all PlayerState.has_all_ships_placed then
            { g with players := players2, is_ship_placement_phase := false,
                     phase := .RUNNING }
          else { g with players := players2 }
        some { g2 with idx_player_active := 1 - g.idx_player_active }
    | .SHOOT =>
      match action.location.get? 0 with
      | none => none
      | some shot_location =>
        let active2 := { active_player with
          shots := active_player.shots ++ [shot_location] }
        match shootScan shot_location opponent.ships with
        | none => none
        | some (ships2, hit) =>
          let active3 :=
            if hit then
              { active2 with
                successful_shots := active2.successful_shots ++ [shot_location] }
            else active2
          let opponent2 := { opponent with ships := ships2 }
          let players2 := pySet (pySet g.players g.idx_player_active active3)
            (1 - g.idx_player_active) opponent2
          let g2 :=
            if opponent2.all_ships_sunk then
              { g with players := players2, phase := .FINISHED,
                       winner := some g.idx_player_active }
            else { g with players := players2 }
          some { g2 with idx_player_active := 1 - g.idx_player_active }
  | _, _ => none

/-- `Battleship.get_player_view`: the requesting player's own `PlayerState`
is put into the view verbatim (in Python, the very same object); the other
player is rebuilt with location- and hit-less ships. -/
def Battleship.get_player_view (g : Battleship) (idx_player : Int) :
    BattleshipGameState :=
  let players_view := g.players.enum.map fun p =>
    if (p.1 : Int) = idx_player then p.2
    else
      { name := p.2.name,
        ships := p.2.ships.map fun ship =>
          { name := ship.name, length := ship.length, location := none },
        shots := p.2.shots,
        successful_shots := p.2.successful_shots }
  { idx_player_active := g.idx_player_active, phase := g.phase,
    winner := g.winner, players := players_view }

/-- A play of the game: states reached from `Battleship.init` by repeatedly
applying an action drawn from `get_list_action` (the only actions guaranteed
safe to apply, per the engine's contract). -/
inductive Reachable : Battleship → Prop
  | init : Reachable Battleship.init
  | step {g g' : Battleship} {acts : List BattleshipAction} {a : BattleshipAction} :
      Reachable g → g.get_list_action = some acts → a ∈ acts →
      g.apply_action a = some g' → Reachable g'

/-! ### Coordinate facts -/

/-- `mkCoord` parses back losslessly over the whole board (checked cell by
cell). -/
theorem parse_mkCoord_ok : ∀ r ∈ List.range' 65 10, ∀ c ∈ List.range' 1 10,
    rowOf (mkCoord r c) = r ∧ colOf (mkCoord r c) = c := by decide

theorem rowOf_mkCoord {r c : Nat} (h65 : 65 ≤ r) (h74 : r ≤ 74)
    (hc1 : 1 ≤ c) (hc10 : c ≤ 10) : rowOf (mkCoord r c) = r :=
  (parse_mkCoord_ok r (by rw [List.mem_range'_1]; omega)
    c (by rw [List.mem_range'_1]; omega)).1

theorem colOf_mkCoord {r c : Nat} (h65 : 65 ≤ r) (h74 : r ≤ 74)
    (hc1 : 1 ≤ c) (hc10 : c ≤ 10) : colOf (mkCoord r c) = c :=
  (parse_mkCoord_ok r (by rw [List.mem_range'_1]; omega)
    c (by rw [List.mem_range'_1]; omega)).2

/-- `allLocations` is exactly the 10×10 board. -/
theorem mem_allLocations {cell : String} : cell ∈ allLocations ↔
    ∃ r c, 65 ≤ r ∧ r ≤ 74 ∧ 1 ≤ c ∧ c ≤ 10 ∧ cell = mkCoord r c := by
  simp only [allLocations, List.mem_flatMap, List.mem_map, List.mem_range'_1]
  constructor
  · rintro ⟨r, hr, c, hc, rfl⟩
    exact ⟨r, c, by omega, by omega, by omega, by omega, rfl⟩
  · rintro ⟨r, c, h1, h2, h3, h4, rfl⟩
    exact ⟨r, by omega, c, by omega, rfl⟩

theorem generate_horizontal_spec {r c : Nat} (L : Nat) (h65 : 65 ≤ r) (h74 : r ≤ 74)
    (hc1 : 1 ≤ c) (hc10 : c ≤ 10) (hL : 1 ≤ L) :
    Battleship.generate_ship_coordinates (mkCoord r c) L "horizontal" =
      if c + L - 1 > 10 then none
      else some ((List.range L).map fun i => mkCoord r (c + i)) := by
  have hrow := rowOf_mkCoord h65 h74 hc1 hc10
  have hcol := colOf_mkCoord h65 h74 hc1 hc10
  have hne : (List.range L).map (fun i => mkCoord r (c + i)) ≠ [] := by
    simp only [ne_eq, List.map_eq_nil_iff, List.range_eq_nil]
    omega
  simp only [Battleship.generate_ship_coordinates, hrow, hcol]
  rw [if_pos trivial]
  by_cases hb : c + L - 1 > 10
  · rw [if_pos hb, if_pos hb]
  · rw [if_neg hb, if_neg hb, if_neg hne]

theorem generate_vertical_spec {r c : Nat} (L : Nat) (h65 : 65 ≤ r) (h74 : r ≤ 74)
    (hc1 : 1 ≤ c) (hc10 : c ≤ 10) (hL : 1 ≤ L) :
    Battleship.generate_ship_coordinates (mkCoord r c) L "vertical" =
      if r + L - 1 > 'J'.toNat then none
      else some ((List.range L).map fun i => mkCoord (r + i) c) := by
  have hrow := rowOf_mkCoord h65 h74 hc1 hc10
  have hcol := colOf_mkCoord h65 h74 hc1 hc10
  have hne : (List.range L).map (fun i => mkCoord (r + i) c) ≠ [] := by
    simp only [ne_eq, List.map_eq_nil_iff, List.range_eq_nil]
    omega
  simp only [Battleship.generate_ship_coordinates, hrow, hcol]
  rw [if_neg (show ¬("vertical" : String) = "horizontal" by decide), if_pos trivial]
  by_cases hb : r + L - 1 > 'J'.toNat
  · rw [if_pos hb, if_pos hb]
  · rw [if_neg hb, if_neg hb, if_neg hne]

/-- A successful `generate_ship_coordinates` call returns exactly `length`
cells, and never an empty list. -/
theorem generate_some_length {start orientation : String} {L : Nat}
    {cs : List String}
    (h : Battleship.generate_ship_coordinates start L orientation = some cs) :
    cs.length = L ∧ cs ≠ [] := by
  simp only [Battleship.generate_ship_coordinates] at h
  split at h
  · split at h
    · exact absurd h (by simp)
    · split at h
      · exact absurd h (by simp)
      · rename_i hne
        obtain rfl : _ = cs := Option.some.inj h
        exact ⟨by simp, hne⟩
  · split at h
    · split at h
      · exact absurd h (by simp)
      · split at h
        · exact absurd h (by simp)
        · rename_i hne
          obtain rfl : _ = cs := Option.some.inj h
          exact ⟨by simp, hne⟩
    · exact absurd h (by simp)

/-- **C8.** For every start cell on the board and every ship length in range,
`generate_ship_coordinates` returns `None` for the horizontal orientation iff
`col + length - 1 > 10`, returns `None` for the vertical orientation iff the
line would extend past row `J` (`ord('J')`), and otherwise returns exactly the
`length` consecutive cells beginning at the start cell along the orientation. -/
theorem generateLine_none_iff_bounds (r c L : Nat) (h65 : 65 ≤ r) (h74 : r ≤ 74)
    (hc1 : 1 ≤ c) (hc10 : c ≤ 10) (hL : 1 ≤ L) :
    (Battleship.generate_ship_coordinates (mkCoord r c) L "horizontal" = none ↔
      c + L - 1 > 10) ∧
    (Battleship.generate_ship_coordinates (mkCoord r c) L "vertical" = none ↔
      r + L - 1 > 'J'.toNat) ∧
    (¬ c + L - 1 > 10 →
      Battleship.generate_ship_coordinates (mkCoord r c) L "horizontal" =
        some ((List.range L).map fun i => mkCoord r (c + i))) ∧
    (¬ r + L - 1 > 'J'.toNat →
      Battleship.generate_ship_coordinates (mkCoord r c) L "vertical" =
        some ((List.range L).map fun i => mkCoord (r + i) c)) := by
  rw [generate_horizontal_spec L h65 h74 hc1 hc10 hL,
    generate_vertical_spec L h65 h74 hc1 hc10 hL]
  refine ⟨?_, ?_, fun hb => if_neg hb, fun hb => if_neg hb⟩
  · by_cases hb : c + L - 1 > 10 <;> simp [hb]
  · by_cases hb : r + L - 1 > 'J'.toNat <;> simp [hb] <;> omega

/-- Witness for `generateLine_none_iff_bounds` at row `A` (65), column 9,
length 2: the horizontal line A9–A10 just fits, the vertical line A9–B9 fits. -/
theorem generateLine_none_iff_bounds_witness :
    (Battleship.generate_ship_coordinates (mkCoord 65 9) 2 "horizontal" = none ↔
      9 + 2 - 1 > 10) ∧
    (Battleship.generate_ship_coordinates (mkCoord 65 9) 2 "vertical" = none ↔
      65 + 2 - 1 > 'J'.toNat) ∧
    (¬ 9 + 2 - 1 > 10 →
      Battleship.generate_ship_coordinates (mkCoord 65 9) 2 "horizontal" =
        some ((List.range 2).map fun i => mkCoord 65 (9 + i))) ∧
    (¬ 65 + 2 - 1 > 'J'.toNat →
      Battleship.generate_ship_coordinates (mkCoord 65 9) 2 "vertical" =
        some ((List.range 2).map fun i => mkCoord (65 + i) 9)) :=
  generateLine_none_iff_bounds 65 9 2 (by decide) (by decide) (by decide)
    (by decide) (by decide)

/-! ### Legal-action enumeration facts -/

/-- If the overlap loop returns `True`, the candidate shares no cell with any
placed ship. -/
theorem overlapLoop_true {coordinates : List String} :
    ∀ {ships : List Ship}, overlapLoop coordinates ships = some true →
      ∀ ship ∈ ships, ∀ l, ship.location = some l → ∀ c ∈ coordinates, c ∉ l := by
  intro ships
  induction ships with
  | nil => intro _ ship hmem; cases hmem
  | cons s rest ih =>
    intro h ship hmem l hloc c hc
    rw [overlapLoop] at h
    rcases hsl : s.location with _ | sl
    · rw [hsl] at h; simp at h
    · rw [hsl] at h
      simp only [] at h
      by_cases hany : (coordinates.any fun c => sl.contains c) = true
      · rw [if_pos hany] at h; cases h
      · rw [if_neg hany] at h
        rcases List.mem_cons.mp hmem with rfl | hmem'
        · rw [hsl] at hloc
          obtain rfl := Option.some.inj hloc
          intro hcl
          exact hany (List.any_eq_true.mpr ⟨c, hc, List.elem_iff.mpr hcl⟩)
        · exact ih h ship hmem' l hloc c hc

/-- `is_valid_ship_placement = True` decomposes into a successful line
generation plus an accepting overlap loop. -/
theorem is_valid_true_elim {ap : PlayerState} {L : Nat} {loc o : String}
    (h : Battleship.is_valid_ship_placement ap L loc o = some true) :
    ∃ cs, Battleship.generate_ship_coordinates loc L o = some cs ∧
      overlapLoop cs ap.ships = some true := by
  unfold Battleship.is_valid_ship_placement at h
  rcases hg : Battleship.generate_ship_coordinates loc L o with _ | cs
  · rw [hg] at h; simp at h
  · rw [hg] at h
    simp only [] at h
    exact ⟨cs, rfl, h⟩

/-- Every action contributed by one cell/orientation during placement is a
`SET_SHIP` whose cells passed `is_valid_ship_placement`. -/
theorem placeActionAt_mem {ap : PlayerState} {L : Nat} {loc o : String}
    {acts : List BattleshipAction} (h : placeActionAt ap L loc o = some acts)
    {a : BattleshipAction} (ha : a ∈ acts) :
    a.action_type = ActionType.SET_SHIP ∧
    a.ship_name = some ("Ship-" ++ toString L) ∧
    Battleship.is_valid_ship_placement ap L loc o = some true ∧
    Battleship.generate_ship_coordinates loc L o = some a.location := by
  unfold placeActionAt at h
  rcases hv : Battleship.is_valid_ship_placement ap L loc o with _ | b
  · rw [hv] at h; simp at h
  · rw [hv] at h
    rcases b with _ | _
    · simp only [] at h
      obtain rfl := Option.some.inj h
      cases ha
    · simp only [] at h
      rcases hg : Battleship.generate_ship_coordinates loc L o with _ | cs
      · rw [hg] at h; simp at h
      · rw [hg] at h
        simp only [] at h
        obtain rfl := Option.some.inj h
        obtain rfl := List.mem_singleton.mp ha
        exact ⟨rfl, rfl, rfl, rfl⟩

/-- Every action returned by the placement loop of `get_list_action` comes
from some board cell and orientation accepted by `is_valid_ship_placement`. -/
theorem listActionsAux_mem {ap : PlayerState} {L : Nat} :
    ∀ {locs : List String} {acts : List BattleshipAction},
      listActionsAux ap L locs = some acts → ∀ {a : BattleshipAction}, a ∈ acts →
      ∃ loc o, loc ∈ locs ∧ (o = "horizontal" ∨ o = "vertical") ∧
        a.action_type = ActionType.SET_SHIP ∧
        a.ship_name = some ("Ship-" ++ toString L) ∧
        Battleship.is_valid_ship_placement ap L loc o = some true ∧
        Battleship.generate_ship_coordinates loc L o = some a.location := by
  intro locs
  induction locs with
  | nil =>
    intro acts h a ha
    rw [listActionsAux] at h
    obtain rfl := Option.some.inj h
    cases ha
  | cons loc rest ih =>
    intro acts h a ha
    rw [listActionsAux] at h
    rcases hH : placeActionAt ap L loc "horizontal" with _ | hA
    · rw [hH] at h; simp at h
    · rw [hH] at h
      simp only [] at h
      rcases hV : placeActionAt ap L loc "vertical" with _ | vA
      · rw [hV] at h; simp at h
      · rw [hV] at h
        simp only [] at h
        rcases hR : listActionsAux ap L rest with _ | acc
        · rw [hR] at h; simp at h
        · rw [hR] at h
          simp only [] at h
          obtain rfl := Option.some.inj h
          rcases List.mem_append.mp ha with ha' | hacc
          · rcases List.mem_append.mp ha' with hh | hv
            · obtain ⟨h1, h2, h3, h4⟩ := placeActionAt_mem hH hh
              exact ⟨loc, "horizontal", List.mem_cons_self _ _, Or.inl rfl,
                h1, h2, h3, h4⟩
            · obtain ⟨h1, h2, h3, h4⟩ := placeActionAt_mem hV hv
              exact ⟨loc, "vertical", List.mem_cons_self _ _, Or.inr rfl,
                h1, h2, h3, h4⟩
          · obtain ⟨l', o', hl', ho', rest'⟩ := ih hR hacc
            exact ⟨l', o', List.mem_cons_of_mem _ hl', ho', rest'⟩

/-- Cells generated from a board cell stay on the board. -/
theorem generate_cells_on_board {loc : String} {L : Nat} {o : String}
    {cs : List String} (hloc : loc ∈ allLocations)
    (hgen : Battleship.generate_ship_coordinates loc L o = some cs) :
    ∀ cell ∈ cs, cell ∈ allLocations := by
  obtain ⟨r, c, h65, h74, hc1, hc10, rfl⟩ := mem_allLocations.mp hloc
  have hL : 1 ≤ L := by
    have hlen := (generate_some_length hgen).1
    have hne := (generate_some_length hgen).2
    rcases cs with _ | ⟨x, xs⟩
    · exact absurd rfl hne
    · simp at hlen; omega
  by_cases ho : o = "horizontal"
  · subst ho
    rw [generate_horizontal_spec L h65 h74 hc1 hc10 hL] at hgen
    by_cases hb : c + L - 1 > 10
    · rw [if_pos hb] at hgen; cases hgen
    · rw [if_neg hb] at hgen
      obtain rfl := Option.some.inj hgen
      intro cell hcell
      obtain ⟨i, hi, rfl⟩ := List.mem_map.mp hcell
      have hi' := List.mem_range.mp hi
      exact mem_allLocations.mpr ⟨r, c + i, h65, h74, by omega, by omega, rfl⟩
  · by_cases hv : o = "vertical"
    · subst hv
      rw [generate_vertical_spec L h65 h74 hc1 hc10 hL] at hgen
      by_cases hb : r + L - 1 > 'J'.toNat
      · rw [if_pos hb] at hgen; cases hgen
      · rw [if_neg hb] at hgen
        obtain rfl := Option.some.inj hgen
        intro cell hcell
        obtain ⟨i, hi, rfl⟩ := List.mem_map.mp hcell
        have hi' := List.mem_range.mp hi
        have hb' : r + L - 1 ≤ 74 := le_trans (Nat.not_lt.mp hb) (by decide)
        exact mem_allLocations.mpr ⟨r + i, c, by omega, by omega, by omega,
          by omega, rfl⟩
    · rw [Battleship.generate_ship_coordinates] at hgen
      rw [if_neg ho, if_neg hv] at hgen
      cases hgen

/-- **C4.** In every `Setup`-phase state, every `PlaceShip` (`SET_SHIP`)
candidate returned by `get_list_action` lies entirely on the 10×10 board
(`allLocations` is exactly the cells A1–J10) and shares no cell with any
already-placed ship of the active player. -/
theorem setup_candidates_legal (g : Battleship) (acts : List BattleshipAction)
    (a : BattleshipAction) (active : PlayerState)
    (hphase : g.phase = GamePhase.SETUP)
    (hactive : pyGet g.players g.idx_player_active = some active)
    (hacts : g.get_list_action = some acts)
    (ha : a ∈ acts)
    (htype : a.action_type = ActionType.SET_SHIP) :
    (∀ cell ∈ a.location, cell ∈ allLocations) ∧
    (∀ ship ∈ active.ships, ∀ l, ship.location = some l →
      ∀ cell ∈ a.location, cell ∉ l) := by
  unfold Battleship.get_list_action at hacts
  rw [hactive] at hacts
  simp only [] at hacts
  by_cases hflag : g.is_ship_placement_phase = true
  · rw [if_pos hflag] at hacts
    by_cases hlt : active.ships.length < ship_lengths.length
    · rw [dif_pos hlt] at hacts
      obtain ⟨loc, o, hloc, ho, _, _, hvalid, hgen⟩ := listActionsAux_mem hacts ha
      constructor
      · exact generate_cells_on_board hloc hgen
      · obtain ⟨cs, hgen', hover⟩ := is_valid_true_elim hvalid
        rw [hgen'] at hgen
        obtain hcs := Option.some.inj hgen
        rw [hcs] at hover
        intro ship hship l hl cell hcell
        exact overlapLoop_true hover ship hship l hl cell hcell
    · rw [dif_neg hlt] at hacts
      obtain rfl := Option.some.inj hacts
      cases ha
  · rw [if_neg hflag] at hacts
    obtain rfl := Option.some.inj hacts
    obtain ⟨loc, hloc, rfl⟩ := List.mem_map.mp ha
    simp at htype

/-- The ship-2 placement at A1–A2 offered by a fresh game. -/
def initPlacementAction : BattleshipAction :=
  { action_type := .SET_SHIP, ship_name := some "Ship-2", location := ["A1", "A2"] }

/-- The action list a fresh game offers. -/
def initActs : List BattleshipAction :=
  (Battleship.init.get_list_action).getD []

/-- Witness for `setup_candidates_legal`: the A1–A2 candidate of a fresh game. -/
theorem setup_candidates_legal_witness :
    (∀ cell ∈ initPlacementAction.location, cell ∈ allLocations) ∧
    (∀ ship ∈ ({ name := "a", ships := [] } : PlayerState).ships, ∀ l,
      ship.location = some l → ∀ cell ∈ initPlacementAction.location, cell ∉ l) :=
  setup_candidates_legal Battleship.init initActs initPlacementAction
    { name := "a", ships := [] } rfl (by decide) (by decide) (by decide) (by decide)

/-! ### Action application facts -/

/-- **C1 counterexample.** A `Shoot` issued during `Setup` (fresh game) is not
rejected: `apply_action` returns normally — no `InvalidAction` is raised
anywhere in the engine — and the resulting state differs from the original,
so the call is not a no-op either. -/
theorem shoot_during_setup_not_rejected :
    Battleship.init.phase = GamePhase.SETUP ∧
    (Battleship.init.apply_action
      { action_type := .SHOOT, ship_name := none, location := ["A1"] }).isSome = true ∧
    Battleship.init.apply_action
      { action_type := .SHOOT, ship_name := none, location := ["A1"] } ≠
      some Battleship.init := by decide

/-- **C1 (amended).** `apply_action` performs no phase check and rejects
nothing: whenever it returns at all, the resulting state has the flipped
active-player index and therefore differs from the input state — every
completed call mutates the engine, phase-mismatched actions included. -/
theorem apply_action_always_mutates (g : Battleship) (a : BattleshipAction)
    (g' : Battleship) (h : g.apply_action a = some g') :
    g'.idx_player_active = 1 - g.idx_player_active ∧ g' ≠ g := by
  have hidx : g'.idx_player_active = 1 - g.idx_player_active := by
    unfold Battleship.apply_action at h
    rcases h1 : pyGet g.players g.idx_player_active with _ | ap
    · rw [h1] at h; simp at h
    · rw [h1] at h
      rcases h2 : pyGet g.players (1 - g.idx_player_active) with _ | opp
      · rw [h2] at h; simp at h
      · rw [h2] at h
        simp only [] at h
        cases hat : a.action_type
        · rw [hat] at h
          simp only [beq_self_eq_true, if_true] at h
          rcases hn : a.ship_name with _ | nm
          · rw [hn] at h; simp at h
          · rw [hn] at h
            simp only [] at h
            obtain rfl := Option.some.inj h
            rfl
        · rw [hat] at h
          simp only [] at h
          rcases hl : a.location.get? 0 with _ | c
          · rw [hl] at h; simp at h
          · rw [hl] at h
            simp only [] at h
            rcases hs : shootScan c opp.ships with _ | ⟨ships2, hit⟩
            · rw [hs] at h; simp at h
            · rw [hs] at h
              simp only [] at h
              obtain rfl := Option.some.inj h
              rfl
  refine ⟨hidx, fun he => ?_⟩
  rw [he] at hidx
  omega

/-- The state a fresh game reaches when `Shoot A1` is applied while still in
`Setup`. -/
def shotInSetupResult : Battleship :=
  (Battleship.init.apply_action
    { action_type := .SHOOT, ship_name := none, location := ["A1"] }).getD
    Battleship.init

/-- Witness for `apply_action_always_mutates`: the setup-phase shot of the
counterexample flips the index and changes the state. -/
theorem apply_action_always_mutates_witness :
    shotInSetupResult.idx_player_active = 1 - Battleship.init.idx_player_active ∧
    shotInSetupResult ≠ Battleship.init :=
  apply_action_always_mutates Battleship.init
    { action_type := .SHOOT, ship_name := none, location := ["A1"] }
    shotInSetupResult (by decide)

/-- **C10.** Shooting while the opponent's ship list is empty (e.g. the very
first action of a fresh game, still in `Setup`) immediately finishes the
game with the shooter as winner: `all_ships_sunk` is vacuously true on an
empty fleet. -/
theorem shoot_empty_fleet_finishes (g : Battleship) (c : String)
    (active opp : PlayerState)
    (hactive : pyGet g.players g.idx_player_active = some active)
    (hopp : pyGet g.players (1 - g.idx_player_active) = some opp)
    (hships : opp.ships = []) :
    opp.all_ships_sunk = true ∧
    (g.apply_action ⟨.SHOOT, none, [c]⟩).map Battleship.phase =
      some GamePhase.FINISHED ∧
    ((g.apply_action ⟨.SHOOT, none, [c]⟩).bind Battleship.winner) =
      some g.idx_player_active := by
  have hsunk : opp.all_ships_sunk = true := by
    rw [PlayerState.all_ships_sunk, hships]; rfl
  refine ⟨hsunk, ?_, ?_⟩ <;>
  · unfold Battleship.apply_action
    rw [hactive, hopp]
    simp only []
    rw [hships]
    rfl

/-- Witness for `shoot_empty_fleet_finishes`: the first shot of a fresh game. -/
theorem shoot_empty_fleet_finishes_witness :
    ({ name := "b", ships := [] } : PlayerState).all_ships_sunk = true ∧
    (Battleship.init.apply_action ⟨.SHOOT, none, ["A1"]⟩).map Battleship.phase =
      some GamePhase.FINISHED ∧
    ((Battleship.init.apply_action ⟨.SHOOT, none, ["A1"]⟩).bind Battleship.winner) =
      some Battleship.init.idx_player_active :=
  shoot_empty_fleet_finishes Battleship.init "A1"
    { name := "a", ships := [] } { name := "b", ships := [] }
    (by decide) (by decide) (by decide)

/-! ### set_state, masked view, and the Finished phase -/

/-- A fleet of the five required lengths in rows A–E. -/
def demoFleetA : List Ship :=
  [{ name := "Ship-2", length := 2, location := some ["A1", "A2"], hits := [] },
   { name := "Ship-3", length := 3, location := some ["B1", "B2", "B3"], hits := [] },
   { name := "Ship-3", length := 3, location := some ["C1", "C2", "C3"], hits := [] },
   { name := "Ship-4", length := 4, location := some ["D1", "D2", "D3", "D4"], hits := [] },
   { name := "Ship-5", length := 5, location := some ["E1", "E2", "E3", "E4", "E5"], hits := [] }]

/-- The mirrored fleet in rows F–J. -/
def demoFleetB : List Ship :=
  [{ name := "Ship-2", length := 2, location := some ["F1", "F2"], hits := [] },
   { name := "Ship-3", length := 3, location := some ["G1", "G2", "G3"], hits := [] },
   { name := "Ship-3", length := 3, location := some ["H1", "H2", "H3"], hits := [] },
   { name := "Ship-4", length := 4, location := some ["I1", "I2", "I3", "I4"], hits := [] },
   { name := "Ship-5", length := 5, location := some ["J1", "J2", "J3", "J4", "J5"], hits := [] }]

/-- An internally consistent `Running`-phase game state: both players hold
all five ships, nobody has shot yet. -/
def sRun : BattleshipGameState :=
  { idx_player_active := 0, phase := .RUNNING, winner := none,
    players := [{ name := "a", ships := demoFleetA },
                { name := "b", ships := demoFleetB }] }

/-- **C7 counterexample.** Loading a consistent `Running` state into a fresh
engine with `set_state` leaves `is_ship_placement_phase` stale (`True`), so
`get_list_action` takes the placement branch and returns NO actions at all —
not the 100 `Shoot` candidates the claim promises — while the same state
loaded into an engine whose flag is `False` yields the 100 `Shoot`s.  The
behavior is therefore not determined by the state passed to `set_state`. -/
theorem set_state_running_yields_no_shoot_actions :
    sRun.phase = GamePhase.RUNNING ∧
    sRun.players.all PlayerState.has_all_ships_placed = true ∧
    (Battleship.init.set_state sRun).get_state = sRun ∧
    (Battleship.init.set_state sRun).get_list_action = some [] ∧
    (({ Battleship.init with is_ship_placement_phase := false }.set_state
      sRun).get_list_action).map List.length = some 100 := by decide

/-- **C7 (amended).** `set_state` copies the four `GameState` fields but not
the internal `is_ship_placement_phase` flag; afterwards `get_state` does
return the given state, but `get_list_action` is a function of the state
*and* the engine's pre-existing flag (two engines agreeing on the flag agree
on the action list, and the flag survives `set_state`). -/
theorem set_state_behavior (g1 g2 : Battleship) (s : BattleshipGameState)
    (hflag : g1.is_ship_placement_phase = g2.is_ship_placement_phase) :
    (g1.set_state s).get_state = s ∧
    (g1.set_state s).is_ship_placement_phase = g1.is_ship_placement_phase ∧
    (g1.set_state s).get_list_action = (g2.set_state s).get_list_action := by
  obtain ⟨i, ph, w, ps⟩ := s
  refine ⟨rfl, rfl, ?_⟩
  show Battleship.get_list_action ⟨ps, i, ph, w, g1.is_ship_placement_phase⟩ =
    Battleship.get_list_action ⟨ps, i, ph, w, g2.is_ship_placement_phase⟩
  rw [hflag]

/-- Witness for `set_state_behavior` on a fresh engine and `sRun`. -/
theorem set_state_behavior_witness :
    (Battleship.init.set_state sRun).get_state = sRun ∧
    (Battleship.init.set_state sRun).is_ship_placement_phase =
      Battleship.init.is_ship_placement_phase ∧
    (Battleship.init.set_state sRun).get_list_action =
      (Battleship.init.set_state sRun).get_list_action :=
  set_state_behavior Battleship.init Battleship.init sRun rfl

/-- `get?` through `enumFrom`. -/
theorem enumFrom_get? {α : Type} : ∀ (n : Nat) (l : List α) (k : Nat),
    (List.enumFrom n l).get? k = (l.get? k).map fun a => (n + k, a)
  | _, [], _ => by simp [List.enumFrom]
  | n, a :: l, 0 => by simp [List.enumFrom]
  | n, a :: l, k + 1 => by
    simp only [List.enumFrom, List.get?]
    rw [enumFrom_get? (n + 1) l k]
    have : n + 1 + k = n + (k + 1) := by omega
    rw [this]

/-- **C9.** Value-level shadow of the aliasing defect: the requesting
player's own entry of `get_player_view` is the engine's own `PlayerState`
returned verbatim — in the Python source it is the very same mutable object
(`players_view.append(player)`), so mutating the returned view mutates the
engine state seen by later `get_state` calls. -/
theorem get_player_view_own_entry_verbatim (g : Battleship) (k : Nat) :
    ((g.get_player_view (k : Int)).players).get? k = g.players.get? k := by
  show ((g.players.enum.map _).get? k) = _
  rw [List.get?_map, List.enum, enumFrom_get?]
  rcases g.players.get? k with _ | p
  · rfl
  · simp

/-- The placements and shots of one complete legal game: the two mirrored
fleets go down in rows A–E and F–J, then player 0 sinks all of player 1's
fleet (17 hits) while player 1 fires 16 misses into columns 9–10. -/
def demoGame : List BattleshipAction :=
  [⟨.SET_SHIP, some "Ship-2", ["A1", "A2"]⟩,
   ⟨.SET_SHIP, some "Ship-2", ["F1", "F2"]⟩,
   ⟨.SET_SHIP, some "Ship-3", ["B1", "B2", "B3"]⟩,
   ⟨.SET_SHIP, some "Ship-3", ["G1", "G2", "G3"]⟩,
   ⟨.SET_SHIP, some "Ship-3", ["C1", "C2", "C3"]⟩,
   ⟨.SET_SHIP, some "Ship-3", ["H1", "H2", "H3"]⟩,
   ⟨.SET_SHIP, some "Ship-4", ["D1", "D2", "D3", "D4"]⟩,
   ⟨.SET_SHIP, some "Ship-4", ["I1", "I2", "I3", "I4"]⟩,
   ⟨.SET_SHIP, some "Ship-5", ["E1", "E2", "E3", "E4", "E5"]⟩,
   ⟨.SET_SHIP, some "Ship-5", ["J1", "J2", "J3", "J4", "J5"]⟩] ++
  ((List.zip
    ["F1", "F2", "G1", "G2", "G3", "H1", "H2", "H3",
     "I1", "I2", "I3", "I4", "J1", "J2", "J3", "J4"]
    ["A10", "B10", "C10", "D10", "E10", "F10", "G10", "H10",
     "I10", "J10", "A9", "B9", "C9", "D9", "E9", "F9"]).flatMap
    fun p => [⟨.SHOOT, none, [p.1]⟩, ⟨.SHOOT, none, [p.2]⟩]) ++
  [⟨.SHOOT, none, ["J5"]⟩]

/-- The engine state at the end of `demoGame`. -/
def gFin : Battleship :=
  demoGame.foldl (fun g a => (g.apply_action a).getD g) Battleship.init

/-- **C2 counterexample.** At the end of the played-out game `gFin` the phase
is `Finished` (winner 0), yet `get_list_action` is not the empty list: the
branch is on `is_ship_placement_phase`, so the now-active player 1 is still
offered one `Shoot` per cell they have not yet shot — 84 actions. -/
theorem finished_game_still_offers_actions :
    gFin.phase = GamePhase.FINISHED ∧
    gFin.winner = some 0 ∧
    (gFin.get_list_action).map List.length = some 84 := by decide

/-- **C2 (amended).** In `Finished` phase the engine still offers `Shoot`
actions: since `is_ship_placement_phase` is `False` once the game has run,
`get_list_action` returns one `Shoot` per board cell not yet in the active
player's `shots` — the empty list only once all 100 cells have been shot. -/
theorem finished_offers_remaining_shots (g : Battleship) (active : PlayerState)
    (hphase : g.phase = GamePhase.FINISHED)
    (hflag : g.is_ship_placement_phase = false)
    (hactive : pyGet g.players g.idx_player_active = some active) :
    g.get_list_action = some ((allLocations.filter fun loc =>
      !(active.shots.contains loc)).map fun loc =>
        { action_type := ActionType.SHOOT, ship_name := none,
          location := [loc] }) := by
  unfold Battleship.get_list_action
  rw [hactive, hflag]
  rfl

/-- A small post-game state: player 0's two-cell ship was sunk by player 1. -/
def tinyFinished : Battleship :=
  { players :=
      [{ name := "a",
         ships := [{ name := "Ship-2", length := 2, location := some ["A1", "A2"],
                     hits := ["A1", "A2"] }] },
       { name := "b", ships := [], shots := ["A1", "A2"],
         successful_shots := ["A1", "A2"] }],
    idx_player_active := 0, phase := .FINISHED, winner := some 1,
    is_ship_placement_phase := false }

/-- Witness for `finished_offers_remaining_shots` on `tinyFinished`: the
active player 0 has not shot at all, so all 100 cells come back. -/
theorem finished_offers_remaining_shots_witness :
    tinyFinished.get_list_action = some ((allLocations.filter fun loc =>
      !(({ name := "a",
           ships := [{ name := "Ship-2", length := 2, location := some ["A1", "A2"],
                       hits := ["A1", "A2"] }] } : PlayerState).shots.contains
        loc)).map fun loc =>
        { action_type := ActionType.SHOOT, ship_name := none,
          location := [loc] }) :=
  finished_offers_remaining_shots tinyFinished
    { name := "a",
      ships := [{ name := "Ship-2", length := 2, location := some ["A1", "A2"],
                  hits := ["A1", "A2"] }] }
    rfl rfl (by decide)

/-! ### Shot resolution -/

theorem register_hit_false_elim {s s2 : Ship} {loc : String}
    (h : s.register_hit loc = some (s2, false)) :
    s2 = s ∧ ∃ l, s.location = some l ∧ loc ∉ l := by
  unfold Ship.register_hit at h
  rcases hl : s.location with _ | l
  · rw [hl] at h; cases h
  · rw [hl] at h
    simp only [] at h
    by_cases hc : l.contains loc = true
    · rw [if_pos hc] at h; simp at h
    · rw [if_neg hc] at h
      have hh := Option.some.inj h
      have hs2 : s = s2 := congrArg Prod.fst hh
      exact ⟨hs2.symm, l, rfl, fun hm => hc (List.elem_iff.mpr hm)⟩

theorem register_hit_true_elim {s s2 : Ship} {loc : String}
    (h : s.register_hit loc = some (s2, true)) :
    s2 = { s with hits := s.hits ++ [loc] } ∧
      ∃ l, s.location = some l ∧ loc ∈ l := by
  unfold Ship.register_hit at h
  rcases hl : s.location with _ | l
  · rw [hl] at h; cases h
  · rw [hl] at h
    simp only [] at h
    by_cases hc : l.contains loc = true
    · rw [if_pos hc] at h
      have hh := Option.some.inj h
      have hs2 := congrArg Prod.fst hh
      exact ⟨hs2.symm, l, rfl, List.elem_iff.mp hc⟩
    · rw [if_neg hc] at h; simp at h

/-- The scan hits iff some opponent ship's location contains the cell. -/
theorem shootScan_hit_iff {loc : String} : ∀ {ships ships2 : List Ship}
    {hit : Bool}, shootScan loc ships = some (ships2, hit) →
    (hit = true ↔ ∃ s ∈ ships, ∃ l, s.location = some l ∧ loc ∈ l) := by
  intro ships
  induction ships with
  | nil =>
    intro ships2 hit h
    rw [shootScan] at h
    have hh := Option.some.inj h
    have : false = hit := congrArg Prod.snd hh
    subst this
    simp
  | cons s rest ih =>
    intro ships2 hit h
    rw [shootScan] at h
    rcases hr : s.register_hit loc with _ | ⟨s2, b⟩
    · rw [hr] at h; cases h
    · rw [hr] at h
      rcases b with _ | _
      · simp only [] at h
        rcases hs : shootScan loc rest with _ | ⟨rest2, hit2⟩
        · rw [hs] at h; cases h
        · rw [hs] at h
          simp only [] at h
          have hh := Option.some.inj h
          have hhit : hit2 = hit := congrArg Prod.snd hh
          subst hhit
          obtain ⟨rfl, l, hsl, hnl⟩ := register_hit_false_elim hr
          rw [ih hs]
          constructor
          · rintro ⟨t, ht, l', hl', hml'⟩
            exact ⟨t, List.mem_cons_of_mem _ ht, l', hl', hml'⟩
          · rintro ⟨t, ht, l', hl', hml'⟩
            rcases List.mem_cons.mp ht with rfl | ht'
            · rw [hsl] at hl'
              obtain rfl := Option.some.inj hl'
              exact absurd hml' hnl
            · exact ⟨t, ht', l', hl', hml'⟩
      · simp only [] at h
        have hh := Option.some.inj h
        have hhit : true = hit := congrArg Prod.snd hh
        subst hhit
        obtain ⟨rfl, l, hsl, hml⟩ := register_hit_true_elim hr
        simp only [true_iff]
        exact ⟨s, List.mem_cons_self _ _, l, hsl, hml⟩

/-- What the `SHOOT` scan does to the opponent's ship list: either no ship's
location contains the cell and the list is unchanged, or the first ship (in
list order) whose location contains the cell gets the cell appended to its
`hits`, and every ship is otherwise untouched. -/
def first_hit_update (loc : String) (old new : List Ship) : Prop :=
  ((∀ s ∈ old, ∀ l, s.location = some l → loc ∉ l) ∧ new = old) ∨
  (∃ i s l, old.get? i = some s ∧ s.location = some l ∧ loc ∈ l ∧
    (∀ j, j < i → ∀ t, old.get? j = some t → ∀ l', t.location = some l' →
      loc ∉ l') ∧
    new = old.set i { s with hits := s.hits ++ [loc] })

theorem shootScan_first_hit {loc : String} : ∀ {ships ships2 : List Ship}
    {hit : Bool}, shootScan loc ships = some (ships2, hit) →
    first_hit_update loc ships ships2 := by
  intro ships
  induction ships with
  | nil =>
    intro ships2 hit h
    rw [shootScan] at h
    have hh := Option.some.inj h
    have : ([] : List Ship) = ships2 := congrArg Prod.fst hh
    subst this
    exact Or.inl ⟨fun s hs => (nomatch hs), rfl⟩
  | cons s rest ih =>
    intro ships2 hit h
    rw [shootScan] at h
    rcases hr : s.register_hit loc with _ | ⟨s2, b⟩
    · rw [hr] at h; cases h
    · rw [hr] at h
      rcases b with _ | _
      · simp only [] at h
        rcases hs : shootScan loc rest with _ | ⟨rest2, hit2⟩
        · rw [hs] at h; cases h
        · rw [hs] at h
          simp only [] at h
          have hh := Option.some.inj h
          have hships : s2 :: rest2 = ships2 := congrArg Prod.fst hh
          subst hships
          obtain ⟨rfl, l, hsl, hnl⟩ := register_hit_false_elim hr
          rcases ih hs with ⟨hall, rfl⟩ | ⟨i, t, l', hti, htl, hml, hfirst, rfl⟩
          · refine Or.inl ⟨?_, rfl⟩
            intro u hu l' hl'
            rcases List.mem_cons.mp hu with rfl | hu'
            · rw [hsl] at hl'
              obtain rfl := Option.some.inj hl'
              exact hnl
            · exact hall u hu' l' hl'
          · refine Or.inr ⟨i + 1, t, l', by simpa using hti, htl, hml, ?_, rfl⟩
            intro j hj u hu l'' hl''
            rcases j with _ | j
            · simp only [List.get?] at hu
              obtain rfl := Option.some.inj hu
              rw [hsl] at hl''
              obtain rfl := Option.some.inj hl''
              exact hnl
            · exact hfirst j (by omega) u (by simpa using hu) l'' hl''
      · simp only [] at h
        have hh := Option.some.inj h
        have hships : s2 :: rest = ships2 := congrArg Prod.fst hh
        subst hships
        obtain ⟨rfl, l, hsl, hml⟩ := register_hit_true_elim hr
        exact Or.inr ⟨0, s, l, rfl, hsl, hml, by intro j hj; omega, rfl⟩

/-! ### A result-shaped view of `apply_action` -/

/-- The `Ship` object built by the `SET_SHIP` branch. -/
def placedShip (a : BattleshipAction) (name : String) : Ship :=
  { name := name, length := a.location.length, location := some a.location,
    hits := [] }

/-- The player list after the `SET_SHIP` branch appends the new ship. -/
def placedPlayers (g : Battleship) (a : BattleshipAction) (active : PlayerState)
    (name : String) : List PlayerState :=
  pySet g.players g.idx_player_active
    { active with ships := active.ships ++ [placedShip a name] }

/-- The state produced by the `SET_SHIP` branch of `apply_action`. -/
def setShipResult (g : Battleship) (a : BattleshipAction) (active : PlayerState)
    (name : String) : Battleship :=
  let players2 := placedPlayers g a active name
  let g2 := if players2.all PlayerState.has_all_ships_placed then
      { g with players := players2, is_ship_placement_phase := false,
               phase := .RUNNING }
    else { g with players := players2 }
  { g2 with idx_player_active := 1 - g.idx_player_active }

/-- The active player after the `SHOOT` branch records the shot. -/
def shotActive (active : PlayerState) (loc : String) (hit : Bool) : PlayerState :=
  if hit then
    { active with shots := active.shots ++ [loc],
                  successful_shots := active.successful_shots ++ [loc] }
  else { active with shots := active.shots ++ [loc] }

/-- The player list after the `SHOOT` branch records the shot and the scan. -/
def shotPlayers (g : Battleship) (active opp : PlayerState) (loc : String)
    (ships2 : List Ship) (hit : Bool) : List PlayerState :=
  pySet (pySet g.players g.idx_player_active (shotActive active loc hit))
    (1 - g.idx_player_active) { opp with ships := ships2 }

/-- The state produced by the `SHOOT` branch of `apply_action`. -/
def shootResult (g : Battleship) (active opp : PlayerState) (loc : String)
    (ships2 : List Ship) (hit : Bool) : Battleship :=
  let opp2 : PlayerState := { opp with ships := ships2 }
  let players2 := shotPlayers g active opp loc ships2 hit
  let g2 := if opp2.all_ships_sunk then
      { g with players := players2, phase := .FINISHED,
               winner := some g.idx_player_active }
    else { g with players := players2 }
  { g2 with idx_player_active := 1 - g.idx_player_active }

/-- Every successful `apply_action` call is one of the two branch results. -/
theorem apply_action_cases (g : Battleship) (a : BattleshipAction)
    (g' : Battleship) (happly : g.apply_action a = some g') :
    ∃ active opp, pyGet g.players g.idx_player_active = some active ∧
      pyGet g.players (1 - g.idx_player_active) = some opp ∧
      ((a.action_type = ActionType.SET_SHIP ∧ ∃ name, a.ship_name = some name ∧
          g' = setShipResult g a active name) ∨
       (a.action_type = ActionType.SHOOT ∧ ∃ loc ships2 hit,
          a.location.get? 0 = some loc ∧
          shootScan loc opp.ships = some (ships2, hit) ∧
          g' = shootResult g active opp loc ships2 hit)) := by
  unfold Battleship.apply_action at happly
  rcases h1 : pyGet g.players g.idx_player_active with _ | active
  · rw [h1] at happly; simp at happly
  · rw [h1] at happly
    rcases h2 : pyGet g.players (1 - g.idx_player_active) with _ | opp
    · rw [h2] at happly; simp at happly
    · rw [h2] at happly
      simp only [] at happly
      refine ⟨active, opp, rfl, rfl, ?_⟩
      cases hat : a.action_type
      · rw [hat] at happly
        simp only [beq_self_eq_true, if_true] at happly
        rcases hn : a.ship_name with _ | name
        · rw [hn] at happly; simp at happly
        · rw [hn] at happly
          simp only [] at happly
          have hX := Option.some.inj happly
          subst hX
          exact Or.inl ⟨rfl, name, rfl, rfl⟩
      · rw [hat] at happly
        simp only [] at happly
        rcases hl : a.location.get? 0 with _ | loc
        · rw [hl] at happly; simp at happly
        · rw [hl] at happly
          simp only [] at happly
          rcases hs : shootScan loc opp.ships with _ | ⟨ships2, hit⟩
          · rw [hs] at happly; simp at happly
          · rw [hs] at happly
            simp only [] at happly
            have hX := Option.some.inj happly
            subst hX
            exact Or.inr ⟨rfl, loc, ships2, hit, rfl, hs, rfl⟩

theorem setShipResult_players (g : Battleship) (a : BattleshipAction)
    (active : PlayerState) (name : String) :
    (setShipResult g a active name).players = placedPlayers g a active name := by
  unfold setShipResult
  by_cases hb : (placedPlayers g a active name).all PlayerState.has_all_ships_placed = true
  · simp only [if_pos hb]
  · simp only [if_neg hb]

theorem setShipResult_idx (g : Battleship) (a : BattleshipAction)
    (active : PlayerState) (name : String) :
    (setShipResult g a active name).idx_player_active = 1 - g.idx_player_active := by
  unfold setShipResult
  by_cases hb : (placedPlayers g a active name).all PlayerState.has_all_ships_placed = true
  · simp only [if_pos hb]
  · simp only [if_neg hb]

theorem setShipResult_winner (g : Battleship) (a : BattleshipAction)
    (active : PlayerState) (name : String) :
    (setShipResult g a active name).winner = g.winner := by
  unfold setShipResult
  by_cases hb : (placedPlayers g a active name).all PlayerState.has_all_ships_placed = true
  · simp only [if_pos hb]
  · simp only [if_neg hb]

theorem setShipResult_char_pos (g : Battleship) (a : BattleshipAction)
    (active : PlayerState) (name : String)
    (hb : (placedPlayers g a active name).all PlayerState.has_all_ships_placed = true) :
    (setShipResult g a active name).phase = GamePhase.RUNNING ∧
    (setShipResult g a active name).is_ship_placement_phase = false := by
  unfold setShipResult
  simp only [if_pos hb]
  exact ⟨by trivial, by trivial⟩

theorem setShipResult_char_neg (g : Battleship) (a : BattleshipAction)
    (active : PlayerState) (name : String)
    (hb : ¬ (placedPlayers g a active name).all PlayerState.has_all_ships_placed = true) :
    (setShipResult g a active name).phase = g.phase ∧
    (setShipResult g a active name).is_ship_placement_phase =
      g.is_ship_placement_phase := by
  unfold setShipResult
  simp only [if_neg hb]
  exact ⟨by trivial, by trivial⟩

theorem shootResult_players (g : Battleship) (active opp : PlayerState)
    (loc : String) (ships2 : List Ship) (hit : Bool) :
    (shootResult g active opp loc ships2 hit).players =
      shotPlayers g active opp loc ships2 hit := by
  unfold shootResult
  by_cases hk : ({ opp with ships := ships2 } : PlayerState).all_ships_sunk = true
  · simp only [if_pos hk]
  · simp only [if_neg hk]

theorem shootResult_idx (g : Battleship) (active opp : PlayerState)
    (loc : String) (ships2 : List Ship) (hit : Bool) :
    (shootResult g active opp loc ships2 hit).idx_player_active =
      1 - g.idx_player_active := by
  unfold shootResult
  by_cases hk : ({ opp with ships := ships2 } : PlayerState).all_ships_sunk = true
  · simp only [if_pos hk]
  · simp only [if_neg hk]

theorem shootResult_flag (g : Battleship) (active opp : PlayerState)
    (loc : String) (ships2 : List Ship) (hit : Bool) :
    (shootResult g active opp loc ships2 hit).is_ship_placement_phase =
      g.is_ship_placement_phase := by
  unfold shootResult
  by_cases hk : ({ opp with ships := ships2 } : PlayerState).all_ships_sunk = true
  · simp only [if_pos hk]
  · simp only [if_neg hk]

theorem shootResult_char_pos (g : Battleship) (active opp : PlayerState)
    (loc : String) (ships2 : List Ship) (hit : Bool)
    (hk : ({ opp with ships := ships2 } : PlayerState).all_ships_sunk = true) :
    (shootResult g active opp loc ships2 hit).phase = GamePhase.FINISHED ∧
    (shootResult g active opp loc ships2 hit).winner =
      some g.idx_player_active := by
  unfold shootResult
  simp only [if_pos hk]
  exact ⟨by trivial, by trivial⟩

theorem shootResult_char_neg (g : Battleship) (active opp : PlayerState)
    (loc : String) (ships2 : List Ship) (hit : Bool)
    (hk : ¬ ({ opp with ships := ships2 } : PlayerState).all_ships_sunk = true) :
    (shootResult g active opp loc ships2 hit).phase = g.phase ∧
    (shootResult g active opp loc ships2 hit).winner = g.winner := by
  unfold shootResult
  simp only [if_neg hk]
  exact ⟨by trivial, by trivial⟩

/-- A `Running`-phase state in which player 0's `successful_shots` already
contains A1 although no ship of player 1 occupies A1 (such a state is
loadable through `set_state`). -/
def preshotState : Battleship :=
  { players := [{ name := "a", ships := demoFleetA, shots := ["A1"],
                  successful_shots := ["A1"] },
                { name := "b", ships := demoFleetB }],
    idx_player_active := 0, phase := .RUNNING, winner := none,
    is_ship_placement_phase := false }

/-- Player 0 after `Shoot A1` is applied to `preshotState`. -/
def postShotP0 : PlayerState :=
  ((preshotState.apply_action ⟨.SHOOT, none, ["A1"]⟩).getD preshotState).players.headD
    { name := "", ships := [] }

/-- **C3 counterexample.** After `Shoot A1` in the `Running` state
`preshotState`, the cell A1 sits in the shooter's `successful_shots` (it was
already there before the shot) even though no opponent ship's location
contains A1 — the claimed "`cell ∈ successfulShots` iff some opponent ship's
location contains the cell" biconditional is false for this state. -/
theorem shoot_successful_iff_fails :
    preshotState.phase = GamePhase.RUNNING ∧
    (preshotState.apply_action ⟨.SHOOT, none, ["A1"]⟩).isSome = true ∧
    ¬ (("A1" ∈ postShotP0.successful_shots) ↔
       ∃ ship ∈ demoFleetB, "A1" ∈ ship.location.getD []) := by decide

/-- What one `SHOOT` does to the two touched players, in terms of the scan
outcome. -/
theorem shot_conclusion_core (active opp : PlayerState) (c : String)
    (ships2 : List Ship) (hit : Bool)
    (hs : shootScan c opp.ships = some (ships2, hit)) :
    ((shotActive active c hit).shots = active.shots ++ [c] ∧
     c ∈ (shotActive active c hit).shots ∧
     (c ∈ (shotActive active c hit).successful_shots ↔
       (c ∈ active.successful_shots ∨
        ∃ ship ∈ opp.ships, ∃ l, ship.location = some l ∧ c ∈ l))) ∧
    first_hit_update c opp.ships ships2 := by
  have hiff := shootScan_hit_iff hs
  have hfh := shootScan_first_hit hs
  rcases hit with _ | _
  · refine ⟨⟨rfl, by simp [shotActive], ?_⟩, hfh⟩
    show c ∈ active.successful_shots ↔ _
    constructor
    · exact Or.inl
    · rintro (h | hex)
      · exact h
      · exact absurd (hiff.mpr hex) (by simp)
  · refine ⟨⟨rfl, by simp [shotActive], ?_⟩, hfh⟩
    show c ∈ active.successful_shots ++ [c] ↔ _
    exact iff_of_true (by simp) (Or.inr (hiff.mp rfl))

/-- **C3 (amended).** In every two-player `Running` state, applying
`Shoot c` by the active player appends `c` to that player's `shots`, and
afterwards `c` is in the player's `successful_shots` iff it already was
before the shot or some opponent ship's location contains `c`; the first
such ship in list order receives the hit in its `hits` list
(`first_hit_update`). -/
theorem shoot_records_shot_and_hit (g g' : Battleship) (c : String)
    (active opp : PlayerState)
    (hphase : g.phase = GamePhase.RUNNING)
    (hlen : g.players.length = 2)
    (hidx : g.idx_player_active = 0 ∨ g.idx_player_active = 1)
    (hactive : pyGet g.players g.idx_player_active = some active)
    (hopp : pyGet g.players (1 - g.idx_player_active) = some opp)
    (happly : g.apply_action ⟨.SHOOT, none, [c]⟩ = some g') :
    Option.elim (pyGet g'.players g.idx_player_active) False (fun p =>
      p.shots = active.shots ++ [c] ∧ c ∈ p.shots ∧
      (c ∈ p.successful_shots ↔ (c ∈ active.successful_shots ∨
        ∃ ship ∈ opp.ships, ∃ l, ship.location = some l ∧ c ∈ l))) ∧
    Option.elim (pyGet g'.players (1 - g.idx_player_active)) False (fun p =>
      first_hit_update c opp.ships p.ships) := by
  obtain ⟨active', opp', h1, h2, hcase⟩ := apply_action_cases g _ g' happly
  rw [hactive] at h1
  obtain rfl := Option.some.inj h1
  rw [hopp] at h2
  obtain rfl := Option.some.inj h2
  rcases hcase with ⟨hSET, _⟩ | ⟨_, loc, ships2, hit, hl, hs, rfl⟩
  · exact absurd hSET (by simp)
  · simp only [List.get?] at hl
    obtain rfl := Option.some.inj hl
    obtain ⟨p0, p1, hp⟩ := List.length_eq_two.mp hlen
    have hcore := shot_conclusion_core active opp c ships2 hit hs
    rcases hidx with hi | hi
    · have hget1 : pyGet (shootResult g active opp c ships2 hit).players
          g.idx_player_active = some (shotActive active c hit) := by
        rw [shootResult_players]
        unfold shotPlayers
        rw [hp, hi]
        norm_num [pySet, pyGet, List.set, List.get?]
      have hget2 : pyGet (shootResult g active opp c ships2 hit).players
          (1 - g.idx_player_active) = some { opp with ships := ships2 } := by
        rw [shootResult_players]
        unfold shotPlayers
        rw [hp, hi]
        norm_num [pySet, pyGet, List.set, List.get?]
      rw [hget1, hget2]
      exact ⟨hcore.1, hcore.2⟩
    · have hget1 : pyGet (shootResult g active opp c ships2 hit).players
          g.idx_player_active = some (shotActive active c hit) := by
        rw [shootResult_players]
        unfold shotPlayers
        rw [hp, hi]
        norm_num [pySet, pyGet, List.set, List.get?]
      have hget2 : pyGet (shootResult g active opp c ships2 hit).players
          (1 - g.idx_player_active) = some { opp with ships := ships2 } := by
        rw [shootResult_players]
        unfold shotPlayers
        rw [hp, hi]
        norm_num [pySet, pyGet, List.set, List.get?]
      rw [hget1, hget2]
      exact ⟨hcore.1, hcore.2⟩

/-- A fresh two-fleet `Running` state for the C3 witness. -/
def gRunW : Battleship :=
  { players := [{ name := "a", ships := demoFleetA },
                { name := "b", ships := demoFleetB }],
    idx_player_active := 0, phase := .RUNNING, winner := none,
    is_ship_placement_phase := false }

/-- `gRunW` after player 0 shoots F1 (a hit on the opponent's first ship). -/
def gRunWAfter : Battleship :=
  (gRunW.apply_action ⟨.SHOOT, none, ["F1"]⟩).getD gRunW

/-- Witness for `shoot_records_shot_and_hit`: the hit at F1 in `gRunW`. -/
theorem shoot_records_shot_and_hit_witness :
    Option.elim (pyGet gRunWAfter.players gRunW.idx_player_active) False (fun p =>
      p.shots = ({ name := "a", ships := demoFleetA } : PlayerState).shots ++ ["F1"] ∧
      "F1" ∈ p.shots ∧
      ("F1" ∈ p.successful_shots ↔
        ("F1" ∈ ({ name := "a", ships := demoFleetA } : PlayerState).successful_shots ∨
         ∃ ship ∈ ({ name := "b", ships := demoFleetB } : PlayerState).ships,
           ∃ l, ship.location = some l ∧ "F1" ∈ l))) ∧
    Option.elim (pyGet gRunWAfter.players (1 - gRunW.idx_player_active)) False
      (fun p => first_hit_update "F1"
        ({ name := "b", ships := demoFleetB } : PlayerState).ships p.ships) :=
  shoot_records_shot_and_hit gRunW gRunWAfter "F1"
    { name := "a", ships := demoFleetA } { name := "b", ships := demoFleetB }
    rfl rfl (Or.inl rfl) (by decide) (by decide) (by decide)

/-! ### Plays of the game: invariants and phase transitions -/

theorem pyGet_mem {α : Type} {l : List α} {i : Int} {x : α}
    (h : pyGet l i = some x) : x ∈ l := by
  unfold pyGet at h
  split at h
  · exact List.get?_mem h
  · split at h
    · exact List.get?_mem h
    · cases h

theorem pySet_subset {α : Type} {l : List α} {i : Int} {x p : α}
    (hp : p ∈ pySet l i x) : p = x ∨ p ∈ l := by
  unfold pySet at hp
  split at hp
  · rcases List.mem_or_eq_of_mem_set hp with h | h
    · exact Or.inr h
    · exact Or.inl h
  · rcases List.mem_or_eq_of_mem_set hp with h | h
    · exact Or.inr h
    · exact Or.inl h

theorem pySet_length {α : Type} (l : List α) (i : Int) (x : α) :
    (pySet l i x).length = l.length := by
  unfold pySet
  split <;> simp

/-- A legal action is a `SET_SHIP` with a full-length line while the engine
is in its placement mode, and a single-cell `SHOOT` otherwise. -/
theorem legal_action_char (g : Battleship) (acts : List BattleshipAction)
    (a : BattleshipAction) (active : PlayerState)
    (hactive : pyGet g.players g.idx_player_active = some active)
    (hacts : g.get_list_action = some acts) (ha : a ∈ acts) :
    (g.is_ship_placement_phase = true ∧ a.action_type = ActionType.SET_SHIP ∧
      2 ≤ a.location.length) ∨
    (g.is_ship_placement_phase = false ∧ a.action_type = ActionType.SHOOT ∧
      ∃ loc, a.location = [loc]) := by
  unfold Battleship.get_list_action at hacts
  rw [hactive] at hacts
  simp only [] at hacts
  by_cases hflag : g.is_ship_placement_phase = true
  · rw [if_pos hflag] at hacts
    by_cases hlt : active.ships.length < ship_lengths.length
    · rw [dif_pos hlt] at hacts
      obtain ⟨loc, o, hloc, ho, htype, hname, hvalid, hgen⟩ :=
        listActionsAux_mem hacts ha
      refine Or.inl ⟨hflag, htype, ?_⟩
      obtain ⟨hlen', hne⟩ := generate_some_length hgen
      have h2 : ∀ x ∈ ship_lengths, 2 ≤ x := by decide
      have := h2 _ (ship_lengths.get_mem _ hlt)
      omega
    · rw [dif_neg hlt] at hacts
      obtain rfl := Option.some.inj hacts
      cases ha
  · rw [if_neg hflag] at hacts
    obtain rfl := Option.some.inj hacts
    obtain ⟨loc, hloc, rfl⟩ := List.mem_map.mp ha
    exact Or.inr ⟨by simpa using hflag, rfl, loc, rfl⟩

/-- A nonempty list of unhit positive-length ships is not a sunk fleet. -/
theorem fresh_not_sunk {ships : List Ship}
    (hfresh : ∀ s ∈ ships, s.hits = [] ∧ 0 < s.length) (hne : ships ≠ []) :
    ships.all Ship.is_sunk = false := by
  rcases ships with _ | ⟨s, rest⟩
  · exact absurd rfl hne
  · have hs := hfresh s (List.mem_cons_self _ _)
    have hsunk : s.is_sunk = false := by
      unfold Ship.is_sunk
      rw [hs.1]
      simp only [List.length_nil, beq_eq_false_iff_ne, ne_eq]
      omega
    rw [List.all_cons, hsunk, Bool.false_and]

/-- The states a legal play can be in: two players, active index 0 or 1, the
placement flag tracks the `Setup` phase, during `Setup` all placed ships are
unhit lines of positive length, during `Running` neither fleet is sunk, and
`winner` is set exactly in `Finished`. -/
def EngineInv (g : Battleship) : Prop :=
  (g.idx_player_active = 0 ∨ g.idx_player_active = 1) ∧
  g.players.length = 2 ∧
  (g.is_ship_placement_phase = true ↔ g.phase = GamePhase.SETUP) ∧
  (g.phase = GamePhase.SETUP → ∀ p ∈ g.players, ∀ s ∈ p.ships,
    s.hits = [] ∧ 0 < s.length) ∧
  (g.phase = GamePhase.RUNNING → ∀ p ∈ g.players, p.all_ships_sunk = false) ∧
  (g.winner.isSome = true ↔ g.phase = GamePhase.FINISHED)

theorem EngineInv_init : EngineInv Battleship.init := by
  unfold EngineInv
  decide

theorem shotPlayers_get (g : Battleship) (active opp : PlayerState)
    (loc : String) (ships2 : List Ship) (hit : Bool)
    (hidx : g.idx_player_active = 0 ∨ g.idx_player_active = 1)
    (hlen : g.players.length = 2) :
    pyGet (shotPlayers g active opp loc ships2 hit) g.idx_player_active =
      some (shotActive active loc hit) ∧
    pyGet (shotPlayers g active opp loc ships2 hit) (1 - g.idx_player_active) =
      some { opp with ships := ships2 } := by
  obtain ⟨p0, p1, hp⟩ := List.length_eq_two.mp hlen
  unfold shotPlayers
  rcases hidx with hi | hi <;> rw [hp, hi] <;>
    exact ⟨by norm_num [pySet, pyGet, List.set, List.get?],
           by norm_num [pySet, pyGet, List.set, List.get?]⟩

/-- One legal step: it preserves `EngineInv`, `Setup → Running` happens exactly at
the placement completing both fleets, `Running → Finished` happens exactly
when a shot sinks the opponent's last unsunk ship (setting `winner` to the
shooter), and no other phase change is possible. -/
theorem legal_step (g : Battleship) (acts : List BattleshipAction)
    (a : BattleshipAction) (g' : Battleship)
    (hInv : EngineInv g) (hacts : g.get_list_action = some acts) (ha : a ∈ acts)
    (happly : g.apply_action a = some g') :
    EngineInv g' ∧
    (((g.phase = GamePhase.SETUP ∧ g'.phase = GamePhase.RUNNING) ↔
      (a.action_type = ActionType.SET_SHIP ∧ g.phase = GamePhase.SETUP ∧
       g'.players.all PlayerState.has_all_ships_placed = true)) ∧
    ((g.phase = GamePhase.RUNNING ∧ g'.phase = GamePhase.FINISHED) ↔
      (a.action_type = ActionType.SHOOT ∧ g.phase = GamePhase.RUNNING ∧
       (pyGet g.players (1 - g.idx_player_active)).map
         PlayerState.all_ships_sunk = some false ∧
       (pyGet g'.players (1 - g.idx_player_active)).map
         PlayerState.all_ships_sunk = some true)) ∧
    ((g.phase = GamePhase.RUNNING ∧ g'.phase = GamePhase.FINISHED) →
      g'.winner = some g.idx_player_active) ∧
    (g.phase = GamePhase.SETUP →
      g'.phase = GamePhase.SETUP ∨ g'.phase = GamePhase.RUNNING) ∧
    (g.phase = GamePhase.RUNNING →
      g'.phase = GamePhase.RUNNING ∨ g'.phase = GamePhase.FINISHED) ∧
    (g.phase = GamePhase.FINISHED → g'.phase = GamePhase.FINISHED)) := by
  obtain ⟨hidx, hlen, hflag, hsetup, hrun, hwin⟩ := hInv
  obtain ⟨active, opp, hactive, hopp, hcase⟩ := apply_action_cases g a g' happly
  rcases legal_action_char g acts a active hactive hacts ha with
    ⟨hfl, htype, hlen2⟩ | ⟨hfl, htype, loc0, hloc0⟩
  · -- placement step
    have hSETUP : g.phase = GamePhase.SETUP := hflag.mp hfl
    rcases hcase with ⟨_, name, hname, rfl⟩ | ⟨hSH, _⟩
    swap
    · rw [htype] at hSH; cases hSH
    have hply := setShipResult_players g a active name
    have hpi := setShipResult_idx g a active name
    have hpw := setShipResult_winner g a active name
    have hfresh2 : ∀ p ∈ placedPlayers g a active name, ∀ s ∈ p.ships,
        s.hits = [] ∧ 0 < s.length := by
      intro p hp' s hs'
      rcases pySet_subset hp' with rfl | hmem
      · rcases List.mem_append.mp hs' with hold | hnew
        · exact hsetup hSETUP active (pyGet_mem hactive) s hold
        · obtain rfl := List.mem_singleton.mp hnew
          exact ⟨rfl, by unfold placedShip; simp only []; omega⟩
      · exact hsetup hSETUP p hmem s hs'
    have hwfalse : g.winner.isSome = false := by
      rcases hX : g.winner.isSome with _ | _
      · rfl
      · have hq := hwin.mp hX
        rw [hSETUP] at hq
        cases hq
    by_cases hb : (placedPlayers g a active name).all
        PlayerState.has_all_ships_placed = true
    · obtain ⟨hphp, hpfl⟩ := setShipResult_char_pos g a active name hb
      refine ⟨⟨?_, ?_, ?_, ?_, ?_, ?_⟩, ?_, ?_, ?_, ?_, ?_, ?_⟩
      · rw [hpi]; rcases hidx with h | h <;> rw [h] <;> norm_num
      · rw [hply]; unfold placedPlayers; rw [pySet_length]; exact hlen
      · rw [hpfl, hphp]; simp
      · rw [hphp]; intro h; cases h
      · rw [hphp]
        intro _ p hp'
        rw [hply] at hp'
        have h5 : p.has_all_ships_placed = true := List.all_eq_true.mp hb p hp'
        have hne : p.ships ≠ [] := by
          unfold PlayerState.has_all_ships_placed at h5
          have : p.ships.length = 5 := by simpa using h5
          exact List.ne_nil_of_length_pos (by omega)
        unfold PlayerState.all_ships_sunk
        exact fresh_not_sunk (hfresh2 p hp') hne
      · rw [hpw, hphp, hwfalse]
        constructor
        · intro h; cases h
        · intro h; cases h
      · refine iff_of_true ⟨hSETUP, hphp⟩ ⟨htype, hSETUP, ?_⟩
        rw [hply]; exact hb
      · constructor
        · rintro ⟨h1, _⟩; rw [hSETUP] at h1; cases h1
        · rintro ⟨hty, _, _⟩; rw [htype] at hty; cases hty
      · rintro ⟨h1, _⟩; rw [hSETUP] at h1; cases h1
      · intro _; exact Or.inr hphp
      · intro h; rw [hSETUP] at h; cases h
      · intro h; rw [hSETUP] at h; cases h
    · obtain ⟨hphp, hpfl⟩ := setShipResult_char_neg g a active name hb
      refine ⟨⟨?_, ?_, ?_, ?_, ?_, ?_⟩, ?_, ?_, ?_, ?_, ?_, ?_⟩
      · rw [hpi]; rcases hidx with h | h <;> rw [h] <;> norm_num
      · rw [hply]; unfold placedPlayers; rw [pySet_length]; exact hlen
      · rw [hpfl, hphp]; exact hflag
      · rw [hphp]
        intro _ p hp'
        rw [hply] at hp'
        exact hfresh2 p hp'
      · rw [hphp]
        intro h; rw [hSETUP] at h; cases h
      · rw [hpw, hphp]; exact hwin
      · refine iff_of_false ?_ ?_
        · rintro ⟨_, h2⟩; rw [hphp, hSETUP] at h2; cases h2
        · rintro ⟨_, _, h3⟩; rw [hply] at h3; exact hb h3
      · constructor
        · rintro ⟨h1, _⟩; rw [hSETUP] at h1; cases h1
        · rintro ⟨hty, _, _⟩; rw [htype] at hty; cases hty
      · rintro ⟨h1, _⟩; rw [hSETUP] at h1; cases h1
      · intro _; exact Or.inl (by rw [hphp, hSETUP])
      · intro h; rw [hSETUP] at h; cases h
      · intro h; rw [hSETUP] at h; cases h
  · -- shoot step
    have hnSETUP : g.phase ≠ GamePhase.SETUP := by
      intro h
      have hq := hflag.mpr h
      rw [hfl] at hq
      cases hq
    rcases hcase with ⟨hSS, _⟩ | ⟨_, loc', ships2, hit, hl, hs, rfl⟩
    · rw [htype] at hSS; cases hSS
    have hply := shootResult_players g active opp loc' ships2 hit
    have hpi := shootResult_idx g active opp loc' ships2 hit
    have hpf := shootResult_flag g active opp loc' ships2 hit
    have hgets := shotPlayers_get g active opp loc' ships2 hit hidx hlen
    have hships3 : (shotActive active loc' hit).ships = active.ships := by
      unfold shotActive; cases hit <;> rfl
    have hmem2 : ∀ p ∈ shotPlayers g active opp loc' ships2 hit,
        p = { opp with ships := ships2 } ∨ p = shotActive active loc' hit ∨
        p ∈ g.players := by
      intro p hp'
      rcases pySet_subset hp' with h | h
      · exact Or.inl h
      · rcases pySet_subset h with h' | h'
        · exact Or.inr (Or.inl h')
        · exact Or.inr (Or.inr h')
    by_cases hk : ({ opp with ships := ships2 } : PlayerState).all_ships_sunk = true
    · obtain ⟨hphp, hpw⟩ := shootResult_char_pos g active opp loc' ships2 hit hk
      refine ⟨⟨?_, ?_, ?_, ?_, ?_, ?_⟩, ?_, ?_, ?_, ?_, ?_, ?_⟩
      · rw [hpi]; rcases hidx with h | h <;> rw [h] <;> norm_num
      · rw [hply]; unfold shotPlayers; rw [pySet_length, pySet_length]; exact hlen
      · rw [hpf, hfl, hphp]
        constructor
        · intro h; cases h
        · intro h; cases h
      · rw [hphp]; intro h; cases h
      · rw [hphp]; intro h; cases h
      · rw [hpw, hphp]; simp
      · refine iff_of_false ?_ ?_
        · rintro ⟨h1, _⟩; exact hnSETUP h1
        · rintro ⟨hty, _, _⟩; rw [htype] at hty; cases hty
      · by_cases hRU : g.phase = GamePhase.RUNNING
        · refine iff_of_true ⟨hRU, hphp⟩ ⟨htype, hRU, ?_, ?_⟩
          · rw [hopp]
            have := hrun hRU opp (pyGet_mem hopp)
            simp [this]
          · rw [hply, hgets.2]
            simp [hk]
        · refine iff_of_false (fun h => hRU h.1) (fun h => hRU h.2.1)
      · intro _; rw [hpw]
      · intro h; exact absurd h hnSETUP
      · intro _; exact Or.inr hphp
      · intro _; exact hphp
    · obtain ⟨hphp, hpw⟩ := shootResult_char_neg g active opp loc' ships2 hit hk
      have hk2 : ({ opp with ships := ships2 } : PlayerState).all_ships_sunk = false := by
        rcases hX : ({ opp with ships := ships2 } : PlayerState).all_ships_sunk with _ | _
        · rfl
        · exact absurd hX hk
      refine ⟨⟨?_, ?_, ?_, ?_, ?_, ?_⟩, ?_, ?_, ?_, ?_, ?_, ?_⟩
      · rw [hpi]; rcases hidx with h | h <;> rw [h] <;> norm_num
      · rw [hply]; unfold shotPlayers; rw [pySet_length, pySet_length]; exact hlen
      · rw [hpf, hfl, hphp]
        constructor
        · intro h; cases h
        · intro h; exact absurd h hnSETUP
      · rw [hphp]; intro h; exact absurd h hnSETUP
      · rw [hphp]
        intro hRU p hp'
        rw [hply] at hp'
        rcases hmem2 p hp' with rfl | rfl | hmem
        · exact hk2
        · unfold PlayerState.all_ships_sunk
          rw [hships3]
          exact hrun hRU active (pyGet_mem hactive)
        · exact hrun hRU p hmem
      · rw [hpw, hphp]; exact hwin
      · refine iff_of_false ?_ ?_
        · rintro ⟨h1, _⟩; exact hnSETUP h1
        · rintro ⟨hty, _, _⟩; rw [htype] at hty; cases hty
      · refine iff_of_false ?_ ?_
        · rintro ⟨h1, h2⟩; rw [hphp, h1] at h2; cases h2
        · rintro ⟨_, _, _, h4⟩
          rw [hply, hgets.2] at h4
          simp at h4
          exact hk (by rw [h4])
      · rintro ⟨h1, h2⟩; rw [hphp, h1] at h2; cases h2
      · intro h; exact absurd h hnSETUP
      · intro hRU; exact Or.inl (by rw [hphp]; exact hRU)
      · intro hFI; rw [hphp]; exact hFI

theorem reachable_inv : ∀ {g : Battleship}, Reachable g → EngineInv g := by
  intro g h
  induction h with
  | init => exact EngineInv_init
  | step hg hacts ha happly ih => exact (legal_step _ _ _ _ ih hacts ha happly).1

/-- **C6.** In every state reachable from the initial state by a play of the
game (applying actions drawn from `get_list_action`), `winner` is set iff the
phase is `Finished`. -/
theorem winner_iff_finished (g : Battleship) (hr : Reachable g) :
    g.winner.isSome = true ↔ g.phase = GamePhase.FINISHED :=
  (reachable_inv hr).2.2.2.2.2

/-- Witness for `winner_iff_finished` at the initial state. -/
theorem winner_iff_finished_witness :
    Battleship.init.winner.isSome = true ↔
      Battleship.init.phase = GamePhase.FINISHED :=
  winner_iff_finished Battleship.init Reachable.init

/-- **C5.** Along every play, `Setup → Running` fires exactly at the
placement after which both players have all 5 ships; `Running → Finished`
fires exactly when a `Shoot` sinks the opponent's last unsunk ship, with
`winner` set to the shooter's index at that instant; and no other phase
transition occurs. -/
theorem phase_transition_exact (g : Battleship) (acts : List BattleshipAction)
    (a : BattleshipAction) (g' : Battleship) (hr : Reachable g)
    (hacts : g.get_list_action = some acts) (ha : a ∈ acts)
    (happly : g.apply_action a = some g') :
    ((g.phase = GamePhase.SETUP ∧ g'.phase = GamePhase.RUNNING) ↔
      (a.action_type = ActionType.SET_SHIP ∧ g.phase = GamePhase.SETUP ∧
       g'.players.all PlayerState.has_all_ships_placed = true)) ∧
    ((g.phase = GamePhase.RUNNING ∧ g'.phase = GamePhase.FINISHED) ↔
      (a.action_type = ActionType.SHOOT ∧ g.phase = GamePhase.RUNNING ∧
       (pyGet g.players (1 - g.idx_player_active)).map
         PlayerState.all_ships_sunk = some false ∧
       (pyGet g'.players (1 - g.idx_player_active)).map
         PlayerState.all_ships_sunk = some true)) ∧
    ((g.phase = GamePhase.RUNNING ∧ g'.phase = GamePhase.FINISHED) →
      g'.winner = some g.idx_player_active) ∧
    (g.phase = GamePhase.SETUP →
      g'.phase = GamePhase.SETUP ∨ g'.phase = GamePhase.RUNNING) ∧
    (g.phase = GamePhase.RUNNING →
      g'.phase = GamePhase.RUNNING ∨ g'.phase = GamePhase.FINISHED) ∧
    (g.phase = GamePhase.FINISHED → g'.phase = GamePhase.FINISHED) :=
  (legal_step g acts a g' (reachable_inv hr) hacts ha happly).2

/-- The state after the A1–A2 placement is applied to a fresh game. -/
def initFirstStep : Battleship :=
  (Battleship.init.apply_action initPlacementAction).getD Battleship.init

/-- Witness for `phase_transition_exact`: the first placement of a play. -/
theorem phase_transition_exact_witness :
    ((Battleship.init.phase = GamePhase.SETUP ∧
        initFirstStep.phase = GamePhase.RUNNING) ↔
      (initPlacementAction.action_type = ActionType.SET_SHIP ∧
       Battleship.init.phase = GamePhase.SETUP ∧
       initFirstStep.players.all PlayerState.has_all_ships_placed = true)) ∧
    ((Battleship.init.phase = GamePhase.RUNNING ∧
        initFirstStep.phase = GamePhase.FINISHED) ↔
      (initPlacementAction.action_type = ActionType.SHOOT ∧
       Battleship.init.phase = GamePhase.RUNNING ∧
       (pyGet Battleship.init.players
         (1 - Battleship.init.idx_player_active)).map
         PlayerState.all_ships_sunk = some false ∧
       (pyGet initFirstStep.players
         (1 - Battleship.init.idx_player_active)).map
         PlayerState.all_ships_sunk = some true)) ∧
    ((Battleship.init.phase = GamePhase.RUNNING ∧
        initFirstStep.phase = GamePhase.FINISHED) →
      initFirstStep.winner = some Battleship.init.idx_player_active) ∧
    (Battleship.init.phase = GamePhase.SETUP →
      initFirstStep.phase = GamePhase.SETUP ∨
      initFirstStep.phase = GamePhase.RUNNING) ∧
    (Battleship.init.phase = GamePhase.RUNNING →
      initFirstStep.phase = GamePhase.RUNNING ∨
      initFirstStep.phase = GamePhase.FINISHED) ∧
    (Battleship.init.phase = GamePhase.FINISHED →
      initFirstStep.phase = GamePhase.FINISHED) :=
  phase_transition_exact Battleship.init initActs initPlacementAction
    initFirstStep Reachable.init rfl (by decide) rfl
